import Mathlib

set_option maxRecDepth 8192

namespace MultusHC

/-! Shallow embedding of the multus-hc IPAM core.

IPv4 addresses are modelled by their big-endian uint32 value as a natural
number; Go uint32 arithmetic is made explicit with `% 2 ^ 32`.  Path-shaped
etcd keys are lists of path segments ("multus/lease/net1" is the list
["multus", "lease", "net1"]); the final lease-key component, which the code
formats and parses character by character, is modelled as the list of its
character codes (decimal digits are the codes 48..57, the dash is 45, the
space is 32, the slash is 47). -/

/-- Go uint32 addition. -/
def add32 (a b : Nat) : Nat := (a + b) % 2 ^ 32

/-- Go uint32 subtraction; wraps around below zero. -/
def sub32 (a b : Nat) : Nat := (a % 2 ^ 32 + 2 ^ 32 - b % 2 ^ 32) % 2 ^ 32

/-- Decimal digits of a number, most significant first, fuel-structured so
that the kernel can evaluate it; 40 digits cover every value in scope. -/
def toDecAux : Nat → Nat → List Nat
  | 0, _ => []
  | fuel + 1, n => if n = 0 then [] else toDecAux fuel (n / 10) ++ [n % 10]

/-- Decimal digit list of a number as fmt prints it (0 prints as "0"). -/
def toDec (n : Nat) : List Nat := if n = 0 then [0] else toDecAux 40 n

/-- Numeric value of a decimal digit list, most significant first. -/
def ofDec (ds : List Nat) : Nat := ds.foldl (fun a d => a * 10 + d) 0

/-- Zero padding to width 10, as the fmt verb %010d. -/
def pad10 (ds : List Nat) : List Nat := List.replicate (10 - ds.length) 0 ++ ds

/-- Character codes of a digit list. -/
def digitCodes (ds : List Nat) : List Nat := ds.map (fun d => 48 + d)

/-- Space padding to width 10 of a printed number, as the fmt verb %10d. -/
def padSp10 (ds : List Nat) : List Nat :=
  List.replicate (10 - ds.length) 32 ++ digitCodes ds

/-- Modelled from the spec: the missing ipaddr.StrToUint32, parsing the
decimal fields of the wire format <uint32Start>-<hostSize>; a string that is
not all digits yields 0 (the caller treats a 0 start as an invalid key).
The same function models strconv.ParseUint with its error discarded, which
also leaves 0 in the host-etcd reader. -/
def StrToUint32 (cs : List Nat) : Nat :=
  if cs ≠ [] ∧ cs.all (fun c => 48 ≤ c && c ≤ 57) then
    ofDec (cs.map (fun c => c - 48)) % 2 ^ 32
  else 0

/-- Modelled from the spec: SimpleRange is the pair (start, end), both
inclusive; net.IP values are modelled by their uint32 value. -/
structure SimpleRange where
  RangeStart : Nat
  RangeEnd : Nat
deriving DecidableEq

/-- Least exponent search used by HostSize, fuel-structured. -/
def hostSizeAux : Nat → Nat → Nat → Nat
  | 0, _, n => n
  | fuel + 1, size, n => if size ≤ 2 ^ n then n else hostSizeAux fuel size (n + 1)

/-- Modelled from the spec: SimpleRange.HostSize returns the smallest n with
end - start + 1 ≤ 2 ^ n (the allocator package is not among the sources). -/
def SimpleRange.HostSize (r : SimpleRange) : Nat :=
  hostSizeAux 40 (r.RangeEnd - r.RangeStart + 1) 0

/-- Modelled from the spec: rangeMatch — start and end both equal. -/
def SimpleRange.Match (a b : SimpleRange) : Bool :=
  a.RangeStart == b.RangeStart && a.RangeEnd == b.RangeEnd

/-- Modelled from the spec: rangeOverlap on inclusive ranges. -/
def SimpleRange.Overlaps (a b : SimpleRange) : Bool :=
  decide (a.RangeStart ≤ b.RangeEnd) && decide (b.RangeStart ≤ a.RangeEnd)

/-- An IPv4 subnet: the network address as uint32 plus the mask length. -/
structure IPNet where
  ip : Nat
  maskLen : Nat
deriving DecidableEq

/-- Complement of the netmask (Go ^mask) as a number. -/
def IPNet.hostMask (s : IPNet) : Nat := 2 ^ (32 - s.maskLen) - 1

/-- Modelled from the spec: the missing ipaddr.Net4To2Uint32 — subnetBounds,
the usable range (network + 1, broadcast - 1). -/
def Net4To2Uint32 (s : IPNet) : Nat × Nat := (s.ip + 1, s.ip + s.hostMask - 1)

/-- Modelled from the spec: the missing ipaddr.Uint32AddSeg — the start plus
the block span 2 ^ hostSize, in uint32 arithmetic. -/
def Uint32AddSeg (x n : Nat) : Nat := add32 x (2 ^ n)

/-- Character codes of the cli.go keyTemplate "%010d-%d" for one lease:
the zero-padded start, a dash, the host-size exponent. -/
def leaseBase (start hostSize : Nat) : List Nat :=
  digitCodes (pad10 (toDec start)) ++ 45 :: digitCodes (toDec hostSize)

/-- Transliteration of ipamSimpleRangeToLease (cli.go): the lease key is the
key directory joined with the formatted block. -/
def ipamSimpleRangeToLease (keyDir : List String) (rs : SimpleRange) :
    List String × List Nat :=
  (keyDir, leaseBase rs.RangeStart rs.HostSize)

/-- strings.Split at the first dash (code 45), keeping the parts the code
indexes as lease[0] and lease[1]; the keys in scope contain one dash. -/
def breakDash : List Nat → List Nat × List Nat
  | [] => ([], [])
  | c :: rest =>
    if c = 45 then ([], rest)
    else
      let p := breakDash rest
      (c :: p.1, p.2)

/-- Transliteration of ipmaLeaseToUint32Range (cli.go, the source's own
spelling): parse the base of the key as <start>-<hostSize> and return
(start, start + 2 ^ hostSize - 1) in uint32 arithmetic. -/
def ipmaLeaseToUint32Range (key : List String × List Nat) : Nat × Nat :=
  let lease := breakDash key.2
  let IPStart := StrToUint32 lease.1
  let hostSize := StrToUint32 lease.2
  (IPStart, sub32 (Uint32AddSeg IPStart hostSize) 1)

/-- Transliteration of ipamLeaseToSimleRange (cli.go, the source's own
spelling). -/
def ipamLeaseToSimleRange (l : List String × List Nat) : SimpleRange :=
  let p := ipmaLeaseToUint32Range l
  ⟨p.1, p.2⟩

/-- Loop of ipamGetFreeIPRange (cli.go): walk the sorted lease keys holding
the next candidate start in last; a key whose parsed start is 0 is skipped
as invalid; a gap of at least unit before the next key is returned at once;
when the keys run out the loop falls through to the failure return. -/
def ipamGetFreeIPRangeLoop (unit : Nat) :
    Nat → List (List String × List Nat) → Option (Nat × Nat)
  | _, [] => none
  | last, kv :: rest =>
    let p := ipmaLeaseToUint32Range kv
    if p.1 = 0 then ipamGetFreeIPRangeLoop unit last rest
    else if sub32 p.1 last < unit then ipamGetFreeIPRangeLoop unit (add32 p.2 1) rest
    else some (last, sub32 (add32 last unit) 1)

/-- Transliteration of ipamGetFreeIPRange (cli.go): unit = 2 ^ n truncated
to uint32; the walk starts at the SECOND component of Net4To2Uint32 (the
end of the usable range) and none models the "apply ip range failed"
error. -/
def ipamGetFreeIPRange (kvs : List (List String × List Nat)) (subnet : IPNet)
    (n : Nat) : Option (Nat × Nat) :=
  let unit := 2 ^ n % 2 ^ 32
  let rp := Net4To2Uint32 subnet
  ipamGetFreeIPRangeLoop unit rp.2 kvs

/-- Outcome of one lease acquisition call: the block obtained, if any, and
how many coordinator writes were attempted. -/
structure ApplyOut where
  result : Option (Nat × Nat)
  putAttempts : Nat
deriving DecidableEq

/-- Transliteration of IPAMApplyIPRange (cli.go): one gap search followed by
one TransPutKey with noExist set; there is no retry loop (the maxApplyTry
constant of cli.go is never read).  putConflicts i tells whether the i-th
write would fail because another node wrote the key first; only i = 0 is
ever consulted. -/
def IPAMApplyIPRange (kvs : List (List String × List Nat)) (subnet : IPNet)
    (n : Nat) (putConflicts : Nat → Bool) : ApplyOut :=
  match ipamGetFreeIPRange kvs subnet n with
  | none => ⟨none, 0⟩
  | some rs => if putConflicts 0 then ⟨none, 1⟩ else ⟨some rs, 1⟩

/-- Codes after the last slash (code 47), as the host-etcd reader's
IPRange[0][strings.LastIndex(IPRange[0], "/")+1:]. -/
def afterLastSlash (cs : List Nat) : List Nat :=
  (cs.reverse.takeWhile (fun c => c ≠ 47)).reverse

/-- Loop of GetFreeIPRange (host-etcd backend): keys hold the template
"%10d-%10d" (space padded starts and ends, so strconv.ParseUint fails on
them and the discarded error leaves the parsed value 0). -/
def GetFreeIPRangeLoop (unit eIP : Nat) :
    Nat → List (List Nat) → Option (Nat × Nat)
  | lastIP, [] =>
    if lastIP < eIP then
      let block0 := eIP - lastIP
      let block := if block0 > unit then unit else block0
      some (add32 lastIP 1, add32 lastIP block)
    else none
  | lastIP, key :: rest =>
    let IPRange := breakDash key
    let IPRangeBegin := StrToUint32 (afterLastSlash IPRange.1)
    if sub32 IPRangeBegin lastIP ≤ 1 then
      GetFreeIPRangeLoop unit eIP (StrToUint32 IPRange.2) rest
    else some (add32 lastIP 1, sub32 IPRangeBegin 1)

/-- Transliteration of GetFreeIPRange (host-etcd backend): bIP is the
network address plus one, eIP is bIP plus the mask complement minus one
(the broadcast address), and unit here is a block SIZE, not an exponent. -/
def GetFreeIPRange (kvs : List (List Nat)) (subnet : IPNet) (unit : Nat) :
    Option (Nat × Nat) :=
  let bIP := add32 subnet.ip 1
  let eIP := sub32 (add32 bIP subnet.hostMask) 1
  GetFreeIPRangeLoop unit eIP bIP kvs

/-- Retry bound of ApplyNewIPRange (host-etcd backend). -/
def maxApplyTry : Nat := 3

/-- Claim loop of ApplyNewIPRange (host-etcd backend): kvsAt i is the key
list the i-th gap search reads, wins i whether the put-then-verify of
attempt i sees its own revision (the race was won).  Returns the block, if
any, and the number of writes made; a gap-search failure returns at once. -/
def ApplyNewIPRangeAux (subnet : IPNet) (unit : Nat)
    (kvsAt : Nat → List (List Nat)) (wins : Nat → Bool) :
    Nat → Nat → Option (Nat × Nat) × Nat
  | 0, attempts => (none, attempts)
  | t + 1, attempts =>
    match GetFreeIPRange (kvsAt attempts) subnet unit with
    | none => (none, attempts)
    | some rs =>
      if wins attempts then (some rs, attempts + 1)
      else ApplyNewIPRangeAux subnet unit kvsAt wins t (attempts + 1)

/-- Transliteration of ApplyNewIPRange (host-etcd backend), its claim loop:
up to maxApplyTry choose-and-write rounds. -/
def ApplyNewIPRange (subnet : IPNet) (unit : Nat)
    (kvsAt : Nat → List (List Nat)) (wins : Nat → Bool) :
    Option (Nat × Nat) × Nat :=
  ApplyNewIPRangeAux subnet unit kvsAt wins maxApplyTry 0

/-- Transliteration of KeyToMutex (etcdv3.go): take the directory of the
key (all segments but the last) and rejoin with "mutex" placed after the
first segment. -/
def KeyToMutex (key : List String) : List String :=
  match key.dropLast with
  | [] => ["mutex"]
  | s0 :: rest => s0 :: "mutex" :: rest

/-- Events a coordinator-client call emits, in order; resource acquisitions
are recorded when they succeed. -/
inductive Ev where
  | newSession : Ev
  | lock : List String → Ev
  | getKey : List String → Ev
  | putKey : List String → String → Ev
  | delKey : List String → Ev
  | unlock : List String → Ev
  | closeSession : Ev
deriving DecidableEq

/-- Result of TransPutKey / TransDelKey: the returned error if any, the
key-value state afterwards, and the event trace of the call. -/
structure TransOut where
  result : Except String Unit
  stored : List String → Option String
  trace : List Ev

/-- Point update of the modelled key-value state. -/
def updateStore (store : List String → Option String) (key : List String)
    (value : String) : List String → Option String :=
  fun k => if k = key then some value else store k

/-- Point removal from the modelled key-value state. -/
def removeStore (store : List String → Option String) (key : List String) :
    List String → Option String :=
  fun k => if k = key then none else store k

/-- Transliteration of TransPutKey (etcdv3.go): create a session (closed by
defer), lock the mutex derived from the key's directory (unlocked by defer,
registered only once the lock is held), optionally read the key and refuse
an existing one, then put.  The Booleans are the outcomes of the session
creation, the lock call, the read and the put. -/
def TransPutKey (store : List String → Option String) (key : List String)
    (value : String) (noExist sessionOK lockOK getOK putOK : Bool) : TransOut :=
  if sessionOK = false then ⟨.error "create etcd session failed", store, []⟩
  else if lockOK = false then
    ⟨.error "get etcd locd failed", store, [.newSession, .closeSession]⟩
  else
    let m := KeyToMutex key
    if noExist then
      if getOK = false then
        ⟨.error "failed to check key", store,
          [.newSession, .lock m, .unlock m, .closeSession]⟩
      else
        match store key with
        | some _ =>
          ⟨.error "key exists", store,
            [.newSession, .lock m, .getKey key, .unlock m, .closeSession]⟩
        | none =>
          if putOK then
            ⟨.ok (), updateStore store key value,
              [.newSession, .lock m, .getKey key, .putKey key value,
               .unlock m, .closeSession]⟩
          else
            ⟨.error "write key failed", store,
              [.newSession, .lock m, .getKey key, .unlock m, .closeSession]⟩
    else
      if putOK then
        ⟨.ok (), updateStore store key value,
          [.newSession, .lock m, .putKey key value, .unlock m, .closeSession]⟩
      else
        ⟨.error "write key failed", store,
          [.newSession, .lock m, .unlock m, .closeSession]⟩

/-- Transliteration of TransDelKey (etcdv3.go): same session and
directory-mutex bracket around an unconditional delete. -/
def TransDelKey (store : List String → Option String) (key : List String)
    (sessionOK lockOK delOK : Bool) : TransOut :=
  if sessionOK = false then ⟨.error "create etcd session failed", store, []⟩
  else if lockOK = false then
    ⟨.error "get etcd locd failed", store, [.newSession, .closeSession]⟩
  else
    let m := KeyToMutex key
    if delOK then
      ⟨.ok (), removeStore store key,
        [.newSession, .lock m, .delKey key, .unlock m, .closeSession]⟩
    else
      ⟨.error "delete key failed", store,
        [.newSession, .lock m, .unlock m, .closeSession]⟩

/-- PutIfAbsent of the spec: TransPutKey with noExist set, on the path where
session, lock, read and write all function. -/
def PutIfAbsent (store : List String → Option String) (key : List String)
    (value : String) : TransOut :=
  TransPutKey store key value true true true true true

/-- Modelled from the spec: the allocator's Range — a SimpleRange with the
subnet and an optional gateway (the allocator package is not among the
sources). -/
structure Range where
  RangeStart : Nat
  RangeEnd : Nat
  Subnet : IPNet
  Gateway : Option Nat
deriving DecidableEq

/-- Modelled from the spec: rangeContains — start ≤ ip ≤ end. -/
def Range.Contains (r : Range) (ip : Nat) : Bool :=
  decide (r.RangeStart ≤ ip) && decide (ip ≤ r.RangeEnd)

/-- Modelled from the spec: ip.Cmp with values in {-1, 0, 1}. -/
def ipCmp (a b : Nat) : Int := if a < b then -1 else if a = b then 0 else 1

/-- Clip step of formRangeSets (multus-ipam main): copy the configured range
and pull its endpoints inward to the cached range. -/
def clipRange (ro : Range) (cr : SimpleRange) : Range :=
  { ro with
    RangeStart := if ipCmp ro.RangeStart cr.RangeStart < 0 then cr.RangeStart
      else ro.RangeStart
    RangeEnd := if ipCmp ro.RangeEnd cr.RangeEnd > 0 then cr.RangeEnd
      else ro.RangeEnd }

namespace Multus

/-- Inner double loop of formRangeSets (multus-ipam main) over one
configured RangeSet: per configured range and cached SimpleRange whose
start or end it contains, append the clipped copy. -/
def formRangeSet1 (cacheRangeSet : List SimpleRange) (rso : List Range) :
    List Range :=
  rso.flatMap fun ro =>
    cacheRangeSet.flatMap fun cr =>
      if ro.Contains cr.RangeStart || ro.Contains cr.RangeEnd then
        [clipRange ro cr]
      else []

/-- Transliteration of formRangeSets (multus-ipam main): one clipped set per
configured RangeSet; the cache file lines arrive already parsed into
SimpleRange values. -/
def formRangeSets (origin : List (List Range))
    (cacheRangeSet : List SimpleRange) : List (List Range) :=
  origin.map (formRangeSet1 cacheRangeSet)

end Multus

/-- Errors of the local allocator as the adapters distinguish them: the
"no IP addresses available in range set" error, which strings.Contains
recognises, against every other message. -/
inductive AllocErr where
  | noIP : AllocErr
  | msg : String → AllocErr
deriving DecidableEq

/-- The strings.Contains(err.Error(), "no IP addresses available in range
set") test of both adapters. -/
def AllocErr.isNoIP : AllocErr → Bool
  | .noIP => true
  | .msg _ => false

namespace Multus

/-- Retry loop of allocateIP (multus-ipam main) for one range, on the state
(ipConf, err); get k is the allocator Get outcome for the k-th attempt on
this range (0 the initial one), applyO i the lease acquisition of loop
iteration i.  A non-noIP error breaks out at once; a failed Get after a
fresh lease continues the loop. -/
def retryLoop (get : Nat → Except AllocErr Nat)
    (applyO : Nat → Except String SimpleRange) :
    Nat → Nat → Option Nat → Option AllocErr → Option Nat × Option AllocErr
  | _, 0, ipConf, err => (ipConf, err)
  | i, fuel + 1, ipConf, err =>
    match err with
    | none => (ipConf, none)
    | some e =>
      if e.isNoIP then
        match applyO i with
        | .error m => (ipConf, some (.msg m))
        | .ok _ =>
          match get (i + 1) with
          | .ok ip => (some ip, none)
          | .error e2 => retryLoop get applyO (i + 1) fuel ipConf (some e2)
      else (ipConf, some e)

/-- Processing of one range set inside allocateIP (multus-ipam main): the
initial Get (or the immediate noIP error when the clipped set is empty)
followed by the three-iteration retry loop. -/
def processRange (rs : List Range) (get : Nat → Except AllocErr Nat)
    (applyO : Nat → Except String SimpleRange) :
    Option Nat × Option AllocErr :=
  if rs.length > 0 then
    match get 0 with
    | .ok ip => retryLoop get applyO 0 3 (some ip) none
    | .error e => retryLoop get applyO 0 3 none (some e)
  else retryLoop get applyO 0 3 none (some .noIP)

/-- Range walk of allocateIP (multus-ipam main): allocs collects the
indices of the allocators that have succeeded; on a range's final failure
the pair carries the released allocator indices (the Go code discards the
Release errors) next to the error result. -/
def allocateIPAux (get : Nat → Nat → Except AllocErr Nat)
    (applyO : Nat → Nat → Except String SimpleRange) :
    List (List Range) → Nat → List Nat → List (Option Nat) →
      Except AllocErr (List (Option Nat)) × List Nat
  | [], _, _, acc => (.ok acc, [])
  | rs :: rest, idx, allocs, acc =>
    match (processRange rs (get idx) (applyO idx)).2 with
    | some e => (.error e, allocs)
    | none =>
      allocateIPAux get applyO rest (idx + 1) (allocs ++ [idx])
        (acc ++ [(processRange rs (get idx) (applyO idx)).1])

/-- Transliteration of allocateIP (multus-ipam main): the range sets come
from formRangeSets; the second component lists the allocators Released on
failure, in order. -/
def allocateIP (origin : List (List Range)) (cache : List SimpleRange)
    (get : Nat → Nat → Except AllocErr Nat)
    (applyO : Nat → Nat → Except String SimpleRange) :
    Except AllocErr (List (Option Nat)) × List Nat :=
  allocateIPAux get applyO (formRangeSets origin cache) 0 [] []

end Multus

namespace HostEtcd

/-- Transliteration of allocateIP (host-etcd main): one Get per range with a
single apply-and-retry on the noIP error; an error that does not contain
"no IP addresses available in range set" falls through the if and the nil
ipConf is appended with no release and no failure. -/
def allocateIPAux (get : Nat → Nat → Except AllocErr Nat)
    (applyO : Nat → Except String SimpleRange) :
    List (List Range) → Nat → List Nat → List (Option Nat) →
      Except AllocErr (List (Option Nat)) × List Nat
  | [], _, _, acc => (.ok acc, [])
  | _rs :: rest, idx, allocs, acc =>
    match get idx 0 with
    | .ok ip =>
      allocateIPAux get applyO rest (idx + 1) (allocs ++ [idx]) (acc ++ [some ip])
    | .error e =>
      if e.isNoIP then
        match applyO idx with
        | .ok _ =>
          match get idx 1 with
          | .ok ip2 =>
            allocateIPAux get applyO rest (idx + 1) (allocs ++ [idx])
              (acc ++ [some ip2])
          | .error _ => (.error (.msg "failed to allocate"), allocs)
        | .error _ => (.error (.msg "failed to allocate"), allocs)
      else
        allocateIPAux get applyO rest (idx + 1) (allocs ++ [idx]) (acc ++ [none])

/-- Entry point of the host-etcd allocateIP walk over already-formed range
sets. -/
def allocateIP (rss : List (List Range)) (get : Nat → Nat → Except AllocErr Nat)
    (applyO : Nat → Except String SimpleRange) :
    Except AllocErr (List (Option Nat)) × List Nat :=
  allocateIPAux get applyO rss 0 [] []

end HostEtcd

/-- Existence of an exactly matching lease, as the reconciler's inner loops
test with SimpleRange.Match. -/
def hasMatch (leases : List SimpleRange) (csr : SimpleRange) : Bool :=
  leases.any fun lsr => csr.Match lsr

/-- Modelled from the spec: disk.DeleteCache — remove the matching cache
line. -/
def deleteCache (disk : List SimpleRange) (c : SimpleRange) :
    List SimpleRange :=
  disk.filter fun x => x != c

/-- Inner cache scan of ipamCheckNet's first pass for one lease: walk the
in-memory cache list, deleting every overlapping non-matching entry from
the cache file until an exact match stops the scan.  Returns whether a
match was found and the entries deleted on the way. -/
def scanCaches (lsr : SimpleRange) : List SimpleRange → Bool × List SimpleRange
  | [] => (false, [])
  | csr :: rest =>
    if csr.Overlaps lsr then
      if csr.Match lsr then (true, [])
      else
        let p := scanCaches lsr rest
        (p.1, csr :: p.2)
    else scanCaches lsr rest

/-- First pass of ipamCheckNet (cli.go): per coordinator lease, scan the
cache; without a match append the lease to the cache, and when that append
fails release the lease in the coordinator (TransDelKey).  Returns the
cache file contents afterwards and the lease keys deleted. -/
def ipamCheckNetFirstPass (keyDir : List String) (memCaches : List SimpleRange)
    (appendOK : SimpleRange → Bool) :
    List SimpleRange → List SimpleRange →
      List SimpleRange × List (List String × List Nat)
  | disk, [] => (disk, [])
  | disk, lsr :: rest =>
    let p := scanCaches lsr memCaches
    let disk1 := p.2.foldl deleteCache disk
    if p.1 then ipamCheckNetFirstPass keyDir memCaches appendOK disk1 rest
    else if appendOK lsr then
      ipamCheckNetFirstPass keyDir memCaches appendOK (disk1 ++ [lsr]) rest
    else
      let q := ipamCheckNetFirstPass keyDir memCaches appendOK disk1 rest
      (q.1, ipamSimpleRangeToLease keyDir lsr :: q.2)

/-- Second pass of ipamCheckNet (cli.go, lines 166-185): over the re-read
cache, every entry without an exactly matching lease is written to the
coordinator with the node id (TransPutKey with noExist), and on a failed
write that entry is deleted from the cache.  Returns the writes attempted
and the cache entries deleted. -/
def ipamCheckNetSecondPass (keyDir : List String) (id : String)
    (leases : List SimpleRange) (putOK : SimpleRange → Bool) :
    List SimpleRange →
      List ((List String × List Nat) × String) × List SimpleRange
  | [] => ([], [])
  | csr :: rest =>
    let p := ipamCheckNetSecondPass keyDir id leases putOK rest
    if hasMatch leases csr then p
    else if putOK csr then ((ipamSimpleRangeToLease keyDir csr, id) :: p.1, p.2)
    else ((ipamSimpleRangeToLease keyDir csr, id) :: p.1, csr :: p.2)

/-- Effects of one ipamCheckNet call: coordinator keys deleted, coordinator
writes attempted, cache entries deleted by the second pass, and the cache
contents at the end. -/
structure CheckNetOut where
  transDels : List (List String × List Nat)
  puts : List ((List String × List Nat) × String)
  cacheDeletes : List SimpleRange
  finalCache : List SimpleRange

/-- Transliteration of ipamCheckNet (cli.go): both passes; every failure of
the disk manager or the cache loads is logged and ends the call with no
error value (the function returns nothing). -/
def ipamCheckNet (keyDir : List String) (id : String)
    (diskOK loadOK1 loadOK2 : Bool) (cache0 : List SimpleRange)
    (appendOK putOK : SimpleRange → Bool) (leases : List SimpleRange) :
    CheckNetOut :=
  if diskOK = false then ⟨[], [], [], cache0⟩
  else if loadOK1 = false then ⟨[], [], [], cache0⟩
  else
    let fp := ipamCheckNetFirstPass keyDir cache0 appendOK cache0 leases
    if loadOK2 = false then ⟨fp.2, [], [], fp.1⟩
    else
      let sp := ipamCheckNetSecondPass keyDir id leases putOK fp.1
      ⟨fp.2, sp.1, sp.2, sp.2.foldl deleteCache fp.1⟩

/-- Transliteration of IPAMCheck (cli.go): an error from the etcd client
construction is returned to the caller (the source even dereferences the
still-nil client first), an error from the lease listing is returned to
the caller, and otherwise each network's ipamCheckNet runs and the call
returns no error. -/
def IPAMCheck (newRes : Except String Unit)
    (listRes : Except String (List (String × List SimpleRange)))
    (rootKeyDir id : String) (diskOK loadOK1 loadOK2 : String → Bool)
    (cache0 : String → List SimpleRange)
    (appendOK putOK : String → SimpleRange → Bool) :
    Except String Unit × List (String × CheckNetOut) :=
  match newRes with
  | .error e => (.error e, [])
  | .ok _ =>
    match listRes with
    | .error e => (.error e, [])
    | .ok leases =>
      (.ok (), leases.map fun p =>
        (p.1, ipamCheckNet [rootKeyDir, "lease", p.1] id (diskOK p.1)
          (loadOK1 p.1) (loadOK2 p.1) (cache0 p.1) (appendOK p.1) (putOK p.1)
          p.2))

/-- Per-lease loop of IPAMCheckLocalIPs (dockercli): a failed container
listing or disk manager is logged and skipped; a dead container's file is
removed only when, re-read under the store lock, it still names the stale
container.  Returns the files removed; no path yields an error. -/
def checkLocalLoop (alive : String → Except String Bool)
    (diskNewOK : String → Bool) (readID : String → String) :
    List (String × String) → List String
  | [] => []
  | (f, id) :: rest =>
    match alive id with
    | .error _ => checkLocalLoop alive diskNewOK readID rest
    | .ok true => checkLocalLoop alive diskNewOK readID rest
    | .ok false =>
      if diskNewOK f then
        (if readID f == id then [f] else []) ++
          checkLocalLoop alive diskNewOK readID rest
      else checkLocalLoop alive diskNewOK readID rest

/-- Transliteration of IPAMCheckLocalIPs (dockercli): a failed docker
client construction is returned to the caller; every other failure is
logged and the call ends with no error. -/
def IPAMCheckLocalIPs (cliOK : Bool) (leases : List (String × String))
    (alive : String → Except String Bool) (diskNewOK : String → Bool)
    (readID : String → String) : Except String Unit × List String :=
  if cliOK then (.ok (), checkLocalLoop alive diskNewOK readID leases)
  else (.error "create docker cli failed", [])

/-- Concrete lease key in the host-etcd template "%10d-%10d" as
ApplyNewIPRange itself writes it (space padded): the block
10.0.0.20-10.0.0.35 under a one-segment directory. -/
def hostKeySpacePadded : List Nat :=
  47 :: (padSp10 (toDec 167772180) ++ 45 :: padSp10 (toDec 167772195))

/-- The same lease rendered without padding, so that the starts parse. -/
def hostKeyPlain : List Nat :=
  47 :: (digitCodes (toDec 167772180) ++ 45 :: digitCodes (toDec 167772195))

/-- Configured range 10..20 inside a /24, no gateway, for the formRangeSets
counterexample. -/
def roC7 : Range := ⟨10, 20, ⟨0, 24⟩, none⟩

/-- Cached lease 5..25, strictly containing roC7. -/
def crC7 : SimpleRange := ⟨5, 25⟩

/-- Oracle for the host-etcd allocateIP counterexample: range 0 gets an IP,
range 1 fails with a non-noIP store error. -/
def c8get : Nat → Nat → Except AllocErr Nat :=
  fun idx _ => if idx = 0 then .ok 100 else .error (.msg "store io")

/-- Range value whose content the allocateIP walk never inspects. -/
def rC8 : Range := ⟨2, 5, ⟨0, 24⟩, none⟩

/-! Theorems.  Each claim of the specification review is settled below;
shared helper lemmas come first. -/

/-- Uint32 addition below the modulus is plain addition. -/
theorem add32_eq {a b : Nat} (h : a + b < 2 ^ 32) : add32 a b = a + b :=
  Nat.mod_eq_of_lt h

/-- Uint32 subtraction with no underflow is plain subtraction. -/
theorem sub32_eq {a b : Nat} (hba : b ≤ a) (ha : a < 2 ^ 32) :
    sub32 a b = a - b := by
  have hb : b < 2 ^ 32 := lt_of_le_of_lt hba ha
  unfold sub32
  rw [Nat.mod_eq_of_lt ha, Nat.mod_eq_of_lt hb]
  have h1 : a + 2 ^ 32 - b = (a - b) + 2 ^ 32 := by omega
  rw [h1, Nat.add_mod_right, Nat.mod_eq_of_lt (by omega)]

/-- C1 (amended): on an empty lease list, acquisition through the host-etcd
GetFreeIPRange succeeds and returns the block of exactly unit addresses
starting at the network address plus two — one past the subnet's first
assignable IP — while acquisition through the multus-ipam IPAMApplyIPRange
always fails with the no-space error, whatever the exponent and even with
no contention, because its gap walk only ever returns a gap lying before
an existing lease key. -/
theorem c1_fresh_network_acquire (subnet : IPNet) (unit : Nat)
    (hwrap : subnet.ip + subnet.hostMask + 1 < 2 ^ 32)
    (hroom : unit + 1 < subnet.hostMask) :
    (∀ n putConflicts, (IPAMApplyIPRange [] subnet n putConflicts).result = none) ∧
    GetFreeIPRange [] subnet unit = some (subnet.ip + 2, subnet.ip + 1 + unit) := by
  constructor
  · intro n pc; rfl
  · have hb : add32 subnet.ip 1 = subnet.ip + 1 := add32_eq (by omega)
    have he : sub32 (add32 (add32 subnet.ip 1) subnet.hostMask) 1 =
        subnet.ip + subnet.hostMask := by
      rw [hb, add32_eq (by omega), sub32_eq (by omega) (by omega)]
      omega
    show GetFreeIPRangeLoop unit (sub32 (add32 (add32 subnet.ip 1) subnet.hostMask) 1)
        (add32 subnet.ip 1) [] = _
    rw [he, hb]
    unfold GetFreeIPRangeLoop
    rw [if_pos (by omega)]
    have hblock : subnet.ip + subnet.hostMask - (subnet.ip + 1) > unit := by omega
    simp only [if_pos hblock]
    rw [add32_eq (by omega), add32_eq (by omega)]

/-- C1 witness: subnet 10.0.0.0/24 with a block of 16 reproduces the
spec's first scenario on the host-etcd side, (10.0.0.2, 10.0.0.17). -/
theorem c1_fresh_network_acquire_witness :
    (∀ n putConflicts,
      (IPAMApplyIPRange [] ⟨167772160, 24⟩ n putConflicts).result = none) ∧
    GetFreeIPRange [] ⟨167772160, 24⟩ 16 = some (167772162, 167772177) :=
  c1_fresh_network_acquire ⟨167772160, 24⟩ 16 (by decide) (by decide)

/-- C1 counterexample: on the fresh network 10.0.0.0/24 with exponent 4 and
no contention, the multus-ipam acquisition (the claim's IPAMApplyIPRange)
returns no block at all instead of the first block — the claim's "it does
not fail with no-space" is false. -/
theorem c1_fresh_network_acquire_cex :
    (IPAMApplyIPRange [] ⟨167772160, 24⟩ 4 (fun _ => false)).result = none ∧
    ipamGetFreeIPRange [] ⟨167772160, 24⟩ 4 = none :=
  ⟨rfl, rfl⟩

/-- Helper for C2: every block the cli.go gap-search loop returns ends
exactly unit - 1 above its start, in uint32 arithmetic. -/
theorem ipamLoop_size (unit : Nat) :
    ∀ (kvs : List (List String × List Nat)) (last s e : Nat),
    ipamGetFreeIPRangeLoop unit last kvs = some (s, e) →
    e = sub32 (add32 s unit) 1 := by
  intro kvs
  induction kvs with
  | nil => intro last s e h; simp [ipamGetFreeIPRangeLoop] at h
  | cons kv rest ih =>
    intro last s e h
    simp only [ipamGetFreeIPRangeLoop] at h
    split at h
    · exact ih _ _ _ h
    · split at h
      · exact ih _ _ _ h
      · simp only [Option.some.injEq, Prod.mk.injEq] at h
        obtain ⟨hs, he⟩ := h
        rw [← hs, ← he]

/-- C2 (amended): every block returned by the multus-ipam gap search spans
exactly unit = 2 ^ n addresses in uint32 arithmetic (end = start + 2^n - 1
up to wrap-around); neither implementation guarantees that the block lies
inside the subnet's usable range, and the host-etcd search returns blocks
of other sizes — see the counterexample. -/
theorem c2_block_exact_size (kvs : List (List String × List Nat))
    (subnet : IPNet) (n s e : Nat)
    (h : ipamGetFreeIPRange kvs subnet n = some (s, e)) :
    e = sub32 (add32 s (2 ^ n % 2 ^ 32)) 1 :=
  ipamLoop_size (2 ^ n % 2 ^ 32) kvs (Net4To2Uint32 subnet).2 s e h

/-- C2 witness: with one lease 0000000002-4 under 10.0.0.0/24 the search
returns a block, and that block spans exactly 2 ^ 4 addresses. -/
theorem c2_block_exact_size_witness :
    (167772429 : Nat) = sub32 (add32 167772414 (2 ^ 4 % 2 ^ 32)) 1 :=
  c2_block_exact_size [(["multus", "lease", "net1"], leaseBase 167772162 4)]
    ⟨167772160, 24⟩ 4 167772414 167772429 (by decide)

/-- C2 counterexample: the claim fails three ways on concrete inputs under
10.0.0.0/24 (usable range up to 10.0.0.254 = 167772414).  The host-etcd
search over the parseable key /167772180-167772195 returns a mid-gap block
of 18 addresses, not 2 ^ 4; over the key in the space-padded template the
code itself writes, the unparsed start reads as 0 and the returned block
runs to 255.255.255.255; and the multus-ipam search, whose walk starts at
the usable range's END, returns a block beginning at 10.0.0.254 that leaves
the subnet. -/
theorem c2_block_exact_size_cex :
    (GetFreeIPRange [hostKeyPlain] ⟨167772160, 24⟩ 16 =
        some (167772162, 167772179) ∧ 167772179 - 167772162 + 1 ≠ 2 ^ 4) ∧
    (GetFreeIPRange [hostKeySpacePadded] ⟨167772160, 24⟩ 16 =
        some (167772162, 4294967295) ∧ ¬ (4294967295 : Nat) ≤ 167772414) ∧
    (ipamGetFreeIPRange [(["multus", "lease", "net1"], leaseBase 167772162 4)]
        ⟨167772160, 24⟩ 4 = some (167772414, 167772429) ∧
      ¬ (167772429 : Nat) ≤ 167772414) := by
  decide

/-- Helper for C4: the host-etcd claim loop makes at most t writes beyond
attempt a, and when it gives up every attempted write had lost the race. -/
theorem applyAux_bound (subnet : IPNet) (unit : Nat)
    (kvsAt : Nat → List (List Nat)) (wins : Nat → Bool) : ∀ (t a : Nat),
    (ApplyNewIPRangeAux subnet unit kvsAt wins t a).2 ≤ a + t ∧
    ((ApplyNewIPRangeAux subnet unit kvsAt wins t a).1 = none →
      ∀ i, a ≤ i → i < (ApplyNewIPRangeAux subnet unit kvsAt wins t a).2 →
      wins i = false) := by
  intro t
  induction t with
  | zero =>
    intro a
    refine ⟨Nat.le_of_eq rfl, ?_⟩
    intro _ i hai hi
    exact absurd hi (by simp [ApplyNewIPRangeAux]; omega)
  | succ t ih =>
    intro a
    cases hg : GetFreeIPRange (kvsAt a) subnet unit with
    | none =>
      have e1 : ApplyNewIPRangeAux subnet unit kvsAt wins (t + 1) a = (none, a) := by
        simp [ApplyNewIPRangeAux, hg]
      rw [e1]
      exact ⟨by omega, fun _ i hai hi => absurd hi (by omega)⟩
    | some rs =>
      cases hw : wins a with
      | true =>
        have e1 : ApplyNewIPRangeAux subnet unit kvsAt wins (t + 1) a =
            (some rs, a + 1) := by
          simp [ApplyNewIPRangeAux, hg, hw]
        rw [e1]
        exact ⟨by omega, fun h => absurd h (by simp)⟩
      | false =>
        have e1 : ApplyNewIPRangeAux subnet unit kvsAt wins (t + 1) a =
            ApplyNewIPRangeAux subnet unit kvsAt wins t (a + 1) := by
          simp [ApplyNewIPRangeAux, hg, hw]
        rw [e1]
        refine ⟨le_trans (ih (a + 1)).1 (by omega), ?_⟩
        intro h i hai hi
        rcases Nat.eq_or_lt_of_le hai with heq | hlt
        · rw [heq] at hw; exact hw
        · exact (ih (a + 1)).2 h i hlt hi

/-- C4 (amended): the host-etcd ApplyNewIPRange retries the whole
choose-and-write step, writing at most maxApplyTry = 3 times, and returns
failure only once every attempted write has lost the race; the multus-ipam
IPAMApplyIPRange, by contrast, makes at most one write and never retries
(see the counterexample). -/
theorem c4_retry_bound (subnet : IPNet) (unit : Nat)
    (kvsAt : Nat → List (List Nat)) (wins : Nat → Bool)
    (kvs : List (List String × List Nat)) (n : Nat) (conf : Nat → Bool) :
    (ApplyNewIPRange subnet unit kvsAt wins).2 ≤ maxApplyTry ∧
    ((ApplyNewIPRange subnet unit kvsAt wins).1 = none →
      ∀ i, i < (ApplyNewIPRange subnet unit kvsAt wins).2 → wins i = false) ∧
    (IPAMApplyIPRange kvs subnet n conf).putAttempts ≤ 1 := by
  refine ⟨(applyAux_bound subnet unit kvsAt wins maxApplyTry 0).1, ?_, ?_⟩
  · intro h i hi
    exact (applyAux_bound subnet unit kvsAt wins maxApplyTry 0).2 h i
      (Nat.zero_le i) hi
  · unfold IPAMApplyIPRange
    cases ipamGetFreeIPRange kvs subnet n with
    | none => simp
    | some rs => cases conf 0 <;> simp

/-- C4 counterexample: a conflict that only affects the first write.  The
multus-ipam IPAMApplyIPRange returns failure after exactly one write —
there is no retry — while the host-etcd loop on the same schedule retries
and succeeds on its second write. -/
theorem c4_retry_bound_cex :
    (IPAMApplyIPRange [(["multus", "lease", "net1"], leaseBase 167772162 4)]
        ⟨167772160, 24⟩ 4 (fun i => decide (i = 0))).result = none ∧
    (IPAMApplyIPRange [(["multus", "lease", "net1"], leaseBase 167772162 4)]
        ⟨167772160, 24⟩ 4 (fun i => decide (i = 0))).putAttempts = 1 ∧
    ApplyNewIPRange ⟨167772160, 24⟩ 16 (fun _ => []) (fun i => decide (i = 1)) =
      (some (167772162, 167772177), 2) := by
  decide

/-- Helper for C10: TransPutKey brackets its body between the lock on the
key-directory mutex and the deferred unlock and session close, on every
outcome of the read, the write and the key check. -/
theorem transPut_discipline (store : List String → Option String) (key : List String)
    (value : String) : ∀ (noExist sOK lOK gOK pOK : Bool),
    (Ev.lock (KeyToMutex key) ∈ (TransPutKey store key value noExist sOK lOK gOK pOK).trace →
      ∃ body, (TransPutKey store key value noExist sOK lOK gOK pOK).trace =
        Ev.newSession :: Ev.lock (KeyToMutex key) :: body ++
          [Ev.unlock (KeyToMutex key), Ev.closeSession]) ∧
    (Ev.newSession ∈ (TransPutKey store key value noExist sOK lOK gOK pOK).trace →
      Ev.closeSession ∈ (TransPutKey store key value noExist sOK lOK gOK pOK).trace) := by
  intro noExist sOK lOK gOK pOK
  cases sOK with
  | false => constructor <;> simp [TransPutKey]
  | true =>
    cases lOK with
    | false => constructor <;> simp [TransPutKey]
    | true =>
      cases noExist with
      | false =>
        cases pOK with
        | true =>
          exact ⟨fun _ => ⟨[Ev.putKey key value], rfl⟩, fun _ => by simp [TransPutKey]⟩
        | false =>
          exact ⟨fun _ => ⟨[], rfl⟩, fun _ => by simp [TransPutKey]⟩
      | true =>
        cases gOK with
        | false => exact ⟨fun _ => ⟨[], rfl⟩, fun _ => by simp [TransPutKey]⟩
        | true =>
          cases hk : store key with
          | some v =>
            exact ⟨fun _ => ⟨[Ev.getKey key], by simp [TransPutKey, hk]⟩,
              fun _ => by simp [TransPutKey, hk]⟩
          | none =>
            cases pOK with
            | true =>
              exact ⟨fun _ => ⟨[Ev.getKey key, Ev.putKey key value], by simp [TransPutKey, hk]⟩,
                fun _ => by simp [TransPutKey, hk]⟩
            | false =>
              exact ⟨fun _ => ⟨[Ev.getKey key], by simp [TransPutKey, hk]⟩,
                fun _ => by simp [TransPutKey, hk]⟩

/-- Helper for C10: the same discipline for TransDelKey. -/
theorem transDel_discipline (store : List String → Option String) (key : List String) :
    ∀ (sOK lOK dOK : Bool),
    (Ev.lock (KeyToMutex key) ∈ (TransDelKey store key sOK lOK dOK).trace →
      ∃ body, (TransDelKey store key sOK lOK dOK).trace =
        Ev.newSession :: Ev.lock (KeyToMutex key) :: body ++
          [Ev.unlock (KeyToMutex key), Ev.closeSession]) ∧
    (Ev.newSession ∈ (TransDelKey store key sOK lOK dOK).trace →
      Ev.closeSession ∈ (TransDelKey store key sOK lOK dOK).trace) := by
  intro sOK lOK dOK
  cases sOK with
  | false => constructor <;> simp [TransDelKey]
  | true =>
    cases lOK with
    | false => constructor <;> simp [TransDelKey]
    | true =>
      cases dOK with
      | true => exact ⟨fun _ => ⟨[Ev.delKey key], rfl⟩, fun _ => by simp [TransDelKey]⟩
      | false => exact ⟨fun _ => ⟨[], rfl⟩, fun _ => by simp [TransDelKey]⟩

/-- C10: every TransPutKey or TransDelKey call that acquires the directory
mutex emits the matching unlock followed by the session close at the end of
its trace, and every call that opened a session closes it, on every path —
success, exists-failure, and put or delete failure. -/
theorem c10_mutex_session_release (store : List String → Option String)
    (key : List String) (value : String) (noExist sOK lOK gOK pOK dOK : Bool) :
    (Ev.lock (KeyToMutex key) ∈ (TransPutKey store key value noExist sOK lOK gOK pOK).trace →
      ∃ body, (TransPutKey store key value noExist sOK lOK gOK pOK).trace =
        Ev.newSession :: Ev.lock (KeyToMutex key) :: body ++
          [Ev.unlock (KeyToMutex key), Ev.closeSession]) ∧
    (Ev.newSession ∈ (TransPutKey store key value noExist sOK lOK gOK pOK).trace →
      Ev.closeSession ∈ (TransPutKey store key value noExist sOK lOK gOK pOK).trace) ∧
    (Ev.lock (KeyToMutex key) ∈ (TransDelKey store key sOK lOK dOK).trace →
      ∃ body, (TransDelKey store key sOK lOK dOK).trace =
        Ev.newSession :: Ev.lock (KeyToMutex key) :: body ++
          [Ev.unlock (KeyToMutex key), Ev.closeSession]) ∧
    (Ev.newSession ∈ (TransDelKey store key sOK lOK dOK).trace →
      Ev.closeSession ∈ (TransDelKey store key sOK lOK dOK).trace) :=
  ⟨(transPut_discipline store key value noExist sOK lOK gOK pOK).1,
   (transPut_discipline store key value noExist sOK lOK gOK pOK).2,
   (transDel_discipline store key sOK lOK dOK).1,
   (transDel_discipline store key sOK lOK dOK).2⟩

/-- C3: PutIfAbsent (TransPutKey with noExist) at an existing key returns
the exists error and leaves the state unchanged; at an absent key it writes
the value and succeeds; on both paths the read and the write happen between
the lock and the unlock of the mutex derived from the key's directory. -/
theorem c3_put_if_absent (store : List String → Option String) (key : List String)
    (value : String) :
    (∀ v, store key = some v →
      (PutIfAbsent store key value).result = Except.error "key exists" ∧
      (PutIfAbsent store key value).stored = store ∧
      (PutIfAbsent store key value).trace =
        [Ev.newSession, Ev.lock (KeyToMutex key), Ev.getKey key,
         Ev.unlock (KeyToMutex key), Ev.closeSession]) ∧
    (store key = none →
      (PutIfAbsent store key value).result = Except.ok () ∧
      (PutIfAbsent store key value).stored = updateStore store key value ∧
      (PutIfAbsent store key value).trace =
        [Ev.newSession, Ev.lock (KeyToMutex key), Ev.getKey key,
         Ev.putKey key value, Ev.unlock (KeyToMutex key), Ev.closeSession]) := by
  constructor
  · intro v hv
    refine ⟨?_, ?_, ?_⟩ <;> simp [PutIfAbsent, TransPutKey, hv]
  · intro hn
    refine ⟨?_, ?_, ?_⟩ <;> simp [PutIfAbsent, TransPutKey, hn]

/-- C5: in the reconciler's second pass over the re-read cache, exactly the
entries without an exactly matching coordinator lease are written to the
coordinator with this node's id, and exactly those of them whose write
failed are deleted from the cache — entries with a matching lease are
neither written nor deleted. -/
theorem c5_reconcile_second_pass (keyDir : List String) (id : String)
    (leases : List SimpleRange) (putOK : SimpleRange → Bool)
    (caches : List SimpleRange) :
    (ipamCheckNetSecondPass keyDir id leases putOK caches).1 =
      (caches.filter fun c => !hasMatch leases c).map
        (fun c => (ipamSimpleRangeToLease keyDir c, id)) ∧
    (ipamCheckNetSecondPass keyDir id leases putOK caches).2 =
      caches.filter fun c => !hasMatch leases c && !putOK c := by
  induction caches with
  | nil => exact ⟨rfl, rfl⟩
  | cons csr rest ih =>
    simp only [ipamCheckNetSecondPass, List.filter_cons]
    cases hm : hasMatch leases csr with
    | true => simpa [hm] using ih
    | false =>
      cases hp : putOK csr with
      | true => simp [hm, hp, ih.1, ih.2]
      | false => simp [hm, hp, ih.1, ih.2]

/-- Helper for C6: folding the decimal value over leading zeros is the
identity. -/
theorem foldl_dec_replicate_zero : ∀ k : Nat,
    List.foldl (fun a d => a * 10 + d) 0 (List.replicate k 0) = 0 := by
  intro k
  induction k with
  | zero => rfl
  | succ k ih => simpa [List.replicate_succ] using ih

/-- Helper for C6: zero padding does not change the parsed value. -/
theorem ofDec_pad10 (ds : List Nat) : ofDec (pad10 ds) = ofDec ds := by
  unfold pad10 ofDec
  rw [List.foldl_append, foldl_dec_replicate_zero]

/-- Helper for C6: appending a digit multiplies by the base and adds it. -/
theorem ofDec_append_digit (ds : List Nat) (d : Nat) :
    ofDec (ds ++ [d]) = ofDec ds * 10 + d := by
  unfold ofDec
  rw [List.foldl_append]
  rfl

/-- Helper for C6: printing then parsing a number below the fuel bound is
the identity. -/
theorem ofDec_toDecAux : ∀ (fuel n : Nat), n < 10 ^ fuel →
    ofDec (toDecAux fuel n) = n := by
  intro fuel
  induction fuel with
  | zero =>
    intro n h
    have h0 : n = 0 := by simpa using h
    subst h0
    rfl
  | succ fuel ih =>
    intro n h
    by_cases h0 : n = 0
    · subst h0; rfl
    · rw [toDecAux, if_neg h0, ofDec_append_digit]
      have hd : n / 10 < 10 ^ fuel := by
        rw [Nat.div_lt_iff_lt_mul (by norm_num : (0:Nat) < 10)]
        calc n < 10 ^ (fuel + 1) := h
        _ = 10 ^ fuel * 10 := by rw [Nat.pow_succ]
      rw [ih (n / 10) hd]
      omega

/-- Helper for C6: the decimal round trip on the printed form. -/
theorem ofDec_toDec (n : Nat) (h : n < 10 ^ 40) : ofDec (toDec n) = n := by
  unfold toDec
  by_cases h0 : n = 0
  · subst h0; rfl
  · rw [if_neg h0]; exact ofDec_toDecAux 40 n h

/-- Helper for C6: printed digits are below the base. -/
theorem toDecAux_digits_lt : ∀ (fuel n d : Nat), d ∈ toDecAux fuel n → d < 10 := by
  intro fuel
  induction fuel with
  | zero => intro n d hd; simp [toDecAux] at hd
  | succ fuel ih =>
    intro n d hd
    rw [toDecAux] at hd
    by_cases h0 : n = 0
    · rw [if_pos h0] at hd; simp at hd
    · rw [if_neg h0, List.mem_append] at hd
      rcases hd with hd | hd
      · exact ih _ _ hd
      · simp at hd
        omega

/-- Helper for C6: digits bound for the entry point. -/
theorem toDec_digits_lt (n : Nat) : ∀ d ∈ toDec n, d < 10 := by
  intro d hd
  unfold toDec at hd
  by_cases h0 : n = 0
  · rw [if_pos h0] at hd; simp at hd; omega
  · rw [if_neg h0] at hd; exact toDecAux_digits_lt 40 n d hd

/-- Helper for C6: padding keeps digits below the base. -/
theorem pad10_digits_lt (ds : List Nat) (hds : ∀ d ∈ ds, d < 10) :
    ∀ d ∈ pad10 ds, d < 10 := by
  intro d hd
  unfold pad10 at hd
  rw [List.mem_append] at hd
  rcases hd with hd | hd
  · rw [List.eq_of_mem_replicate hd]; omega
  · exact hds d hd

/-- Helper for C6: the padded field is never empty. -/
theorem pad10_ne_nil (ds : List Nat) : pad10 ds ≠ [] := by
  unfold pad10
  intro h
  rw [List.append_eq_nil] at h
  have hlen := congrArg List.length h.1
  simp only [List.length_replicate, List.length_nil] at hlen
  have h2 : ds = [] := h.2
  subst h2
  simp at hlen

/-- Helper for C6: a printed number has at least one digit. -/
theorem toDec_ne_nil (n : Nat) : toDec n ≠ [] := by
  unfold toDec
  by_cases h0 : n = 0
  · rw [if_pos h0]; simp
  · rw [if_neg h0]
    rw [toDecAux, if_neg h0]
    simp

/-- Helper for C6: decoding the character codes undoes encoding. -/
theorem map_sub48_digitCodes (ds : List Nat) :
    (digitCodes ds).map (fun c => c - 48) = ds := by
  unfold digitCodes
  rw [List.map_map]
  have hcomp : ((fun c => c - 48) ∘ fun d => 48 + d) = id := by
    funext d
    simp
  rw [hcomp, List.map_id]

/-- Helper for C6: encoding a nonempty digit list is nonempty. -/
theorem digitCodes_ne_nil (ds : List Nat) (h : ds ≠ []) : digitCodes ds ≠ [] := by
  unfold digitCodes
  simpa using h

/-- Helper for C6: the parser accepts an encoded digit field and returns
its value. -/
theorem StrToUint32_digitCodes (ds : List Nat) (hne : ds ≠ [])
    (hd : ∀ d ∈ ds, d < 10) :
    StrToUint32 (digitCodes ds) = ofDec ds % 2 ^ 32 := by
  unfold StrToUint32
  rw [if_pos, map_sub48_digitCodes]
  refine ⟨digitCodes_ne_nil ds hne, ?_⟩
  rw [List.all_eq_true]
  intro c hc
  obtain ⟨d, hdm, hdc⟩ := List.mem_map.mp hc
  have hd10 := hd d hdm
  subst hdc
  simp
  omega

/-- Helper for C6: digit codes never collide with the dash separator. -/
theorem digitCodes_ne45 (ds : List Nat) : ∀ c ∈ digitCodes ds, c ≠ 45 := by
  intro c hc
  obtain ⟨d, _, hdc⟩ := List.mem_map.mp hc
  omega

/-- Helper for C6: splitting at the dash undoes the dash join when the
first field has no dash. -/
theorem breakDash_append (a b : List Nat) (ha : ∀ c ∈ a, c ≠ 45) :
    breakDash (a ++ 45 :: b) = (a, b) := by
  induction a with
  | nil => simp [breakDash]
  | cons c a ih =>
    have hc : c ≠ 45 := ha c (List.mem_cons_self c a)
    rw [List.cons_append, breakDash, if_neg hc]
    rw [ih (fun x hx => ha x (List.mem_cons_of_mem c hx))]

/-- Helper for C6: the host-size exponent is bounded by the fuel. -/
theorem hostSizeAux_le : ∀ (fuel size n : Nat), hostSizeAux fuel size n ≤ n + fuel := by
  intro fuel
  induction fuel with
  | zero => intro size n; simp [hostSizeAux]
  | succ fuel ih =>
    intro size n
    rw [hostSizeAux]
    by_cases h : size ≤ 2 ^ n
    · rw [if_pos h]; omega
    · rw [if_neg h]
      have hb := ih size (n + 1)
      omega

/-- C6 (amended): decoding the lease key encoded from a SimpleRange r gives
r back exactly when r's span agrees with its own HostSize exponent
(end = start + 2 ^ HostSize(r) - 1, the invariant of every real lease
block); for other ranges the decoder returns the widened power-of-two block
instead — see the counterexample. -/
theorem c6_lease_roundtrip (keyDir : List String) (r : SimpleRange)
    (hend : r.RangeEnd < 2 ^ 32)
    (hspan : r.RangeEnd + 1 = r.RangeStart + 2 ^ r.HostSize) :
    ipamLeaseToSimleRange (ipamSimpleRangeToLease keyDir r) = r := by
  obtain ⟨s, e⟩ := r
  simp only [SimpleRange.HostSize] at hspan
  have hend' : e < 2 ^ 32 := hend
  have hpow : 0 < 2 ^ hostSizeAux 40 (e - s + 1) 0 := Nat.pos_pow_of_pos _ (by norm_num)
  have hse : s ≤ e := by omega
  have hslt : s < 2 ^ 32 := lt_of_le_of_lt hse hend'
  have hhost : hostSizeAux 40 (e - s + 1) 0 ≤ 40 := by
    simpa using hostSizeAux_le 40 (e - s + 1) 0
  unfold ipamLeaseToSimleRange ipmaLeaseToUint32Range ipamSimpleRangeToLease
  simp only [SimpleRange.HostSize, leaseBase]
  rw [breakDash_append _ _ (digitCodes_ne45 _)]
  rw [StrToUint32_digitCodes _ (pad10_ne_nil _) (pad10_digits_lt _ (toDec_digits_lt s)),
      StrToUint32_digitCodes _ (toDec_ne_nil _) (toDec_digits_lt _)]
  rw [ofDec_pad10, ofDec_toDec s (by calc s < 2 ^ 32 := hslt
        _ < 10 ^ 40 := by norm_num),
      ofDec_toDec _ (by calc hostSizeAux 40 (e - s + 1) 0 ≤ 40 := hhost
        _ < 10 ^ 40 := by norm_num)]
  rw [Nat.mod_eq_of_lt hslt, Nat.mod_eq_of_lt (by calc hostSizeAux 40 (e - s + 1) 0 ≤ 40 := hhost
        _ < 2 ^ 32 := by norm_num)]
  unfold Uint32AddSeg add32
  have hcase : s + 2 ^ hostSizeAux 40 (e - s + 1) 0 = e + 1 := by omega
  rw [hcase]
  rcases Nat.lt_or_ge (e + 1) (2 ^ 32) with hlt | hge
  · rw [Nat.mod_eq_of_lt hlt, sub32_eq (by omega) hlt]
    simp
  · have heq : e + 1 = 2 ^ 32 := by omega
    rw [heq, Nat.mod_self]
    have hsub : sub32 0 1 = e := by
      unfold sub32
      have h1 : 0 % 2 ^ 32 + 2 ^ 32 - 1 % 2 ^ 32 = 2 ^ 32 - 1 := by norm_num
      rw [h1, Nat.mod_eq_of_lt (by norm_num)]
      omega
    rw [hsub]

/-- C6 witness: the block 10.0.0.2-10.0.0.17 of the spec's first scenario,
in offset form (2, 17): its span 16 = 2 ^ 4 matches its HostSize and the key
round-trips. -/
theorem c6_lease_roundtrip_witness :
    ipamLeaseToSimleRange
      (ipamSimpleRangeToLease ["multus", "lease", "net1"] ⟨2, 17⟩) = ⟨2, 17⟩ :=
  c6_lease_roundtrip ["multus", "lease", "net1"] ⟨2, 17⟩ (by decide) (by decide)

/-- C6 counterexample: the claim quantifies over EVERY SimpleRange; the
three-address range (2, 4) encodes with HostSize 2 and decodes to (2, 5),
not to itself. -/
theorem c6_lease_roundtrip_cex :
    ipamLeaseToSimleRange
      (ipamSimpleRangeToLease ["multus", "lease", "net1"] ⟨2, 4⟩) ≠ ⟨2, 4⟩ := by
  decide

/-- C7 (amended): a range belongs to the set formRangeSets builds for the
i-th configured RangeSet exactly when it is the clip of a configured range
ro against a cached range cr whose START or END lies inside ro; this covers
every non-empty intersection except a cached range strictly containing the
configured one, which is dropped — see the counterexample. -/
theorem c7_form_range_sets (origin : List (List Range)) (cache : List SimpleRange)
    (i : Nat) (r : Range) :
    r ∈ (Multus.formRangeSets origin cache).getD i [] ↔
      ∃ ro ∈ origin.getD i [], ∃ cr ∈ cache,
        (ro.Contains cr.RangeStart || ro.Contains cr.RangeEnd) = true ∧
        r = clipRange ro cr := by
  have hmem : ∀ rso, r ∈ Multus.formRangeSet1 cache rso ↔
      ∃ ro ∈ rso, ∃ cr ∈ cache,
        (ro.Contains cr.RangeStart || ro.Contains cr.RangeEnd) = true ∧
        r = clipRange ro cr := by
    intro rso
    simp only [Multus.formRangeSet1, List.mem_flatMap]
    constructor
    · rintro ⟨ro, hro, cr, hcr, hr⟩
      by_cases hc : (ro.Contains cr.RangeStart || ro.Contains cr.RangeEnd) = true
      · rw [if_pos hc] at hr
        simp only [List.mem_singleton] at hr
        exact ⟨ro, hro, cr, hcr, hc, hr⟩
      · rw [if_neg hc] at hr
        simp at hr
    · rintro ⟨ro, hro, cr, hcr, hc, hr⟩
      refine ⟨ro, hro, cr, hcr, ?_⟩
      rw [if_pos hc]
      simp [hr]
  unfold Multus.formRangeSets
  rw [List.getD_eq_getElem?_getD, List.getD_eq_getElem?_getD, List.getElem?_map]
  cases ho : origin[i]? with
  | none => simp
  | some rso => simpa using hmem rso

/-- C7 counterexample: the configured range 10..20 and the cached range
5..25 intersect (in 10..20), yet formRangeSets returns the empty set for
this RangeSet, because neither endpoint of the cached range lies inside the
configured one. -/
theorem c7_form_range_sets_cex :
    max roC7.RangeStart crC7.RangeStart ≤ min roC7.RangeEnd crC7.RangeEnd ∧
    clipRange roC7 crC7 ∉ (Multus.formRangeSets [[roC7]] [crC7]).getD 0 [] := by
  decide

/-- Helper for C8: the range walk of the multus-ipam allocateIP releases
exactly the previously collected allocators on the first failure. -/
theorem allocateIPAux_spec (get : Nat → Nat → Except AllocErr Nat)
    (applyO : Nat → Nat → Except String SimpleRange) :
    ∀ (rss : List (List Range)) (idx : Nat) (allocs : List Nat)
      (acc : List (Option Nat)),
    (∀ l, (Multus.allocateIPAux get applyO rss idx allocs acc).1 = .ok l →
      (Multus.allocateIPAux get applyO rss idx allocs acc).2 = []) ∧
    (∀ e, (Multus.allocateIPAux get applyO rss idx allocs acc).1 = .error e →
      ∃ k, k < rss.length ∧
        (Multus.allocateIPAux get applyO rss idx allocs acc).2 =
          allocs ++ List.range' idx k ∧
        (Multus.processRange (rss.getD k []) (get (idx + k)) (applyO (idx + k))).2 =
          some e ∧
        ∀ j, j < k →
          (Multus.processRange (rss.getD j []) (get (idx + j)) (applyO (idx + j))).2 =
            none) := by
  intro rss
  induction rss with
  | nil =>
    intro idx allocs acc
    exact ⟨fun l _ => rfl, fun e he => absurd he (by simp [Multus.allocateIPAux])⟩
  | cons rs rest ih =>
    intro idx allocs acc
    cases hp : (Multus.processRange rs (get idx) (applyO idx)).2 with
    | some e0 =>
      have e1 : Multus.allocateIPAux get applyO (rs :: rest) idx allocs acc =
          (.error e0, allocs) := by
        simp [Multus.allocateIPAux, hp]
      rw [e1]
      constructor
      · intro l hl; exact absurd hl (by simp)
      · intro e he
        simp only [Except.error.injEq] at he
        subst he
        refine ⟨0, ?_, ?_, ?_, ?_⟩
        · simp
        · simp
        · rw [List.getD_cons_zero, Nat.add_zero, hp]
        · intro j hj
          exact absurd hj (by omega)
    | none =>
      have e1 : Multus.allocateIPAux get applyO (rs :: rest) idx allocs acc =
          Multus.allocateIPAux get applyO rest (idx + 1) (allocs ++ [idx])
            (acc ++ [(Multus.processRange rs (get idx) (applyO idx)).1]) := by
        simp [Multus.allocateIPAux, hp]
      rw [e1]
      constructor
      · intro l hl
        exact (ih (idx + 1) (allocs ++ [idx]) _).1 l hl
      · intro e he
        obtain ⟨k, hk, h2, h3, h4⟩ := (ih (idx + 1) (allocs ++ [idx]) _).2 e he
        refine ⟨k + 1, by simpa using hk, ?_, ?_, ?_⟩
        · rw [h2, List.append_assoc]
          congr 1
        · rw [List.getD_cons_succ]
          have h5 : idx + (k + 1) = idx + 1 + k := by omega
          rw [h5]
          exact h3
        · intro j hj
          cases j with
          | zero => rw [List.getD_cons_zero, Nat.add_zero]; exact hp
          | succ j' =>
            rw [List.getD_cons_succ]
            have h5 : idx + (j' + 1) = idx + 1 + j' := by omega
            rw [h5]
            exact h4 j' (by omega)

/-- C8 (amended): in the multus-ipam allocateIP, a successful ADD releases
nothing, and when some range ultimately fails, the whole ADD fails and
exactly the allocators of the earlier ranges — all of which had succeeded —
are Released, in order (Release outcomes are discarded by construction).
The host-etcd allocateIP does NOT satisfy the claim: it swallows Get errors
other than no-IP — see the counterexample. -/
theorem c8_rollback (origin : List (List Range)) (cache : List SimpleRange)
    (get : Nat → Nat → Except AllocErr Nat)
    (applyO : Nat → Nat → Except String SimpleRange) :
    (∀ l, (Multus.allocateIP origin cache get applyO).1 = .ok l →
      (Multus.allocateIP origin cache get applyO).2 = []) ∧
    (∀ e, (Multus.allocateIP origin cache get applyO).1 = .error e →
      ∃ k, k < (Multus.formRangeSets origin cache).length ∧
        (Multus.allocateIP origin cache get applyO).2 = List.range k ∧
        (Multus.processRange ((Multus.formRangeSets origin cache).getD k [])
          (get k) (applyO k)).2 = some e ∧
        ∀ j, j < k →
          (Multus.processRange ((Multus.formRangeSets origin cache).getD j [])
            (get j) (applyO j)).2 = none) := by
  unfold Multus.allocateIP
  constructor
  · exact (allocateIPAux_spec get applyO (Multus.formRangeSets origin cache) 0 [] []).1
  · intro e he
    obtain ⟨k, hk, h2, h3, h4⟩ :=
      (allocateIPAux_spec get applyO (Multus.formRangeSets origin cache) 0 [] []).2 e he
    refine ⟨k, hk, ?_, by simpa using h3, fun j hj => by simpa using h4 j hj⟩
    rw [h2, List.nil_append, List.range_eq_range']

/-- C8 counterexample: in the host-etcd allocateIP, range 0 allocates
successfully and range 1 fails with a store error that is not the no-IP
message; the claim demands a released range 0 and a failed ADD, but the
code returns success with a nil entry and releases nothing. -/
theorem c8_rollback_cex :
    HostEtcd.allocateIP [[rC8], [rC8]] c8get (fun _ => .ok ⟨2, 17⟩) =
      (.ok [some 100, none], []) := by
  rfl

/-- C9 (amended): the per-network reconciliation and the per-lease liveness
loop log failures and continue, and with a working client and lease listing
IPAMCheck returns no error whatever the per-network outcomes — but both
IPAMCheck and IPAMCheckLocalIPs DO propagate their construction and listing
failures to the caller, from which the claim is false — see the
counterexample. -/
theorem c9_reconciler_errors (rootKeyDir id : String)
    (diskOK loadOK1 loadOK2 : String → Bool) (cache0 : String → List SimpleRange)
    (appendOK putOK : String → SimpleRange → Bool)
    (leases : List (String × List SimpleRange))
    (ll : List (String × String)) (alive : String → Except String Bool)
    (diskNewOK : String → Bool) (readID : String → String) (e1 e2 : String) :
    (IPAMCheck (.ok ()) (.ok leases) rootKeyDir id diskOK loadOK1 loadOK2
        cache0 appendOK putOK).1 = .ok () ∧
    (IPAMCheckLocalIPs true ll alive diskNewOK readID).1 = .ok () ∧
    (IPAMCheck (.error e1) (.ok leases) rootKeyDir id diskOK loadOK1 loadOK2
        cache0 appendOK putOK).1 = .error e1 ∧
    (IPAMCheck (.ok ()) (.error e2) rootKeyDir id diskOK loadOK1 loadOK2
        cache0 appendOK putOK).1 = .error e2 ∧
    (IPAMCheckLocalIPs false ll alive diskNewOK readID).1 =
      .error "create docker cli failed" :=
  ⟨rfl, rfl, rfl, rfl, rfl⟩

/-- C9 counterexample: a failed lease listing makes IPAMCheck return that
very error, and a failed docker client construction makes IPAMCheckLocalIPs
return an error — neither "always returns no error". -/
theorem c9_reconciler_errors_cex :
    (IPAMCheck (.ok ())
        (.error "Get multus/lease failed, context deadline exceeded")
        "multus" "node1" (fun _ => true) (fun _ => true) (fun _ => true)
        (fun _ => []) (fun _ _ => true) (fun _ _ => true)).1 =
      .error "Get multus/lease failed, context deadline exceeded" ∧
    (IPAMCheckLocalIPs false [] (fun _ => .ok true) (fun _ => true)
        (fun _ => "")).1 = .error "create docker cli failed" :=
  ⟨rfl, rfl⟩

end MultusHC
